import Mathlib

/-!
# Tintinnabuli Visualizer — shallow embedding and verification

Shallow embedding of the rendering / theme-extraction core of the
Tintinnabuli Visualizer (`src/unnamed/part_000`, a TypeScript module) and
proofs about it.  JavaScript `number` values are modelled as rationals
(`ℚ`); the computations at issue (small integer arithmetic, division by
10/100/128, multiplication by 1.5) are exact on the inputs the claims
quantify over, so `ℚ` is a faithful model.  `Math.round` is round half
toward positive infinity, `⌊x + 1/2⌋`.  Byte arrays (`Uint8ClampedArray`
RGBA image data) are modelled as lists of `Pixel` records: every byte
index `i` used by the source is a multiple of 4, so byte index `4k + c`
is component `c` of pixel `k`.
-/

namespace Tintin

/-! ## Color helpers (source lines 226–260 of `src/unnamed/part_000`) -/

/-- JavaScript `Math.round`: round half toward +∞. -/
def jsRound (q : ℚ) : ℤ := ⌊q + 1/2⌋

/-- One character of the regex class `[a-f\d]` with the `/i` flag:
decimal digits and hex letters of either case. -/
def isHexDigit (c : Char) : Bool :=
  (('0' ≤ c && c ≤ '9') || ('a' ≤ c && c ≤ 'f') || ('A' ≤ c && c ≤ 'F'))

/-- Value of a hex digit, as `parseInt(·, 16)` assigns it. -/
def hexVal (c : Char) : ℕ :=
  if '0' ≤ c && c ≤ '9' then c.toNat - '0'.toNat
  else if 'a' ≤ c && c ≤ 'f' then c.toNat - 'a'.toNat + 10
  else if 'A' ≤ c && c ≤ 'F' then c.toNat - 'A'.toNat + 10
  else 0

/-- Lowercase hex digit character for a value `0 ≤ d ≤ 15`, as produced by
JavaScript `Number.prototype.toString(16)`. -/
def hexChar (d : ℕ) : Char :=
  if d < 10 then Char.ofNat ('0'.toNat + d)
  else Char.ofNat ('a'.toNat + (d - 10))

/-- Two-lowercase-hex-digit rendering of a byte, as
`x.toString(16).padStart(2, '0')` produces for `0 ≤ x ≤ 255`. -/
def byteToHex (n : ℕ) : List Char := [hexChar (n / 16), hexChar (n % 16)]

/-- The per-channel treatment of `rgbToHex` (source line 244):
`Math.min(255, Math.max(0, Math.round(x)))`. -/
def clampByte (q : ℚ) : ℕ := (min 255 (max 0 (jsRound q))).toNat

/-- `rgbToHex` (source lines 243–244): clamp each channel to `[0,255]`
(rounding first) and format as `'#' + rr + gg + bb` in lowercase hex. -/
def rgbToHex (r g b : ℚ) : String :=
  String.mk ('#' :: (byteToHex (clampByte r) ++ byteToHex (clampByte g) ++ byteToHex (clampByte b)))

/-- The capture groups of `/^#?([a-f\d]{2})([a-f\d]{2})([a-f\d]{2})$/i`
on the string body after the optional `#`: exactly six hex digits. -/
def parseHex6 : List Char → Option (ℕ × ℕ × ℕ)
  | [c1, c2, c3, c4, c5, c6] =>
    if isHexDigit c1 && isHexDigit c2 && isHexDigit c3 &&
       isHexDigit c4 && isHexDigit c5 && isHexDigit c6 then
      some (hexVal c1 * 16 + hexVal c2, hexVal c3 * 16 + hexVal c4, hexVal c5 * 16 + hexVal c6)
    else none
  | _ => none

/-- `hexToRgb` (source lines 234–241): strict 6-digit hex parser, leading
`#` optional, case-insensitive; `none` on any other shape. -/
def hexToRgb (s : String) : Option (ℕ × ℕ × ℕ) :=
  match s.data with
  | '#' :: rest => parseHex6 rest
  | l => parseHex6 l

/-- `getHexLuminance` (source lines 228–232): BT.709 luminance on the
0–255 scale, `0` when the hex string does not parse. -/
def getHexLuminance (s : String) : ℚ :=
  match hexToRgb s with
  | none => 0
  | some (r, g, b) => 0.2126 * r + 0.7152 * g + 0.0722 * b

/-- The `bgLum < 128` dark-background test used at source lines 113–114
(piano roll) and 296–297 (theme extraction). -/
def isDarkColor (s : String) : Bool := decide (getHexLuminance s < 128)

/-- `adjustColor` (source lines 246–260): contrast about 128 first, then
brightness scaled by 1.5, per channel; input returned unchanged when it
does not parse. -/
def adjustColor (hex : String) (brightness contrast : ℚ) : String :=
  match hexToRgb hex with
  | none => hex
  | some (r, g, b) =>
    let bFactor := (brightness - 100) * 1.5
    let cFactor := contrast / 100
    let adjust := fun (val : ℚ) => (val - 128) * cFactor + 128 + bFactor
    rgbToHex (adjust r) (adjust g) (adjust b)

/-! ### Round-trip lemmas for the hex codecs -/

lemma hexVal_hexChar (d : ℕ) (hd : d < 16) :
    hexVal (hexChar d) = d ∧ isHexDigit (hexChar d) = true := by
  interval_cases d <;> simp [hexVal, hexChar, isHexDigit]

lemma parseHex6_byteToHex (n1 n2 n3 : ℕ) (h1 : n1 < 256) (h2 : n2 < 256) (h3 : n3 < 256) :
    parseHex6 [hexChar (n1 / 16), hexChar (n1 % 16), hexChar (n2 / 16), hexChar (n2 % 16),
      hexChar (n3 / 16), hexChar (n3 % 16)] = some (n1, n2, n3) := by
  have d1 := hexVal_hexChar (n1 / 16) (by omega)
  have d2 := hexVal_hexChar (n1 % 16) (Nat.mod_lt _ (by omega))
  have d3 := hexVal_hexChar (n2 / 16) (by omega)
  have d4 := hexVal_hexChar (n2 % 16) (Nat.mod_lt _ (by omega))
  have d5 := hexVal_hexChar (n3 / 16) (by omega)
  have d6 := hexVal_hexChar (n3 % 16) (Nat.mod_lt _ (by omega))
  simp [parseHex6, d1.1, d1.2, d2.1, d2.2, d3.1, d3.2, d4.1, d4.2,
    d5.1, d5.2, d6.1, d6.2]
  refine ⟨?_, ?_, ?_⟩ <;> omega

lemma clampByte_lt (q : ℚ) : clampByte q < 256 := by
  unfold clampByte
  omega

/-- The codec round trip: parsing the string `rgbToHex` builds recovers
exactly the clamped channel bytes. -/
lemma hexToRgb_rgbToHex (r g b : ℚ) :
    hexToRgb (rgbToHex r g b) = some (clampByte r, clampByte g, clampByte b) := by
  unfold hexToRgb rgbToHex
  simp [byteToHex,
    parseHex6_byteToHex _ _ _ (clampByte_lt r) (clampByte_lt g) (clampByte_lt b)]

lemma jsRound_intCast (z : ℤ) : jsRound (z : ℚ) = z := by
  unfold jsRound
  rw [Int.floor_eq_iff]
  constructor <;> [push_cast; push_cast] <;> linarith

lemma clampByte_natCast (n : ℕ) (h : n < 256) : clampByte (n : ℚ) = n := by
  unfold clampByte
  rw [show ((n : ℚ)) = ((n : ℤ) : ℚ) by push_cast; ring, jsRound_intCast]
  omega

/-! ## Data model (`src/unnamed/part_003`, `types.ts`) -/

/-- `NoteEvent`: one note occurrence.  `track` and `channel` are optional
in the TypeScript interface; `none` models `undefined`. -/
structure NoteEvent where
  note : ℚ
  velocity : ℚ
  startTime : ℚ
  duration : ℚ
  track : Option ℕ
  channel : Option ℕ
deriving DecidableEq

/-- `ThemePalette`: the named bundle of hex color strings. -/
structure ThemePalette where
  background : String
  scope : String
  tracks : List String
  text : String
deriving DecidableEq

/-- `DEFAULT_THEME` constant of `types.ts`. -/
def DEFAULT_THEME : ThemePalette :=
  { background := "#fffbe9"
    scope := "#1a1a1a"
    text := "#1a1a1a"
    tracks := ["#1a1a1a", "#8c8c8c", "#4a4a4a", "#b0b0b0"] }

/-! ## Piano-roll renderer (`drawPianoRoll`, source lines 100–179)

The renderer is modelled as a pure function from its inputs to the draw
calls it issues: a background fill, a playhead line, and one styled
rectangle per in-view note.  `(n.track || 0)` is `Option.getD 0`: for a
natural-number field, JavaScript `x || 0` yields `0` exactly when `x` is
`undefined` or `0`, which agrees with `getD` in both cases. -/

/-- `colorIdx` for a note (source lines 140–141):
`((n.track || 0) + (n.channel || 0)) % palette.length`. -/
def noteColorIdx (n : NoteEvent) (palette : List String) : ℕ :=
  (n.track.getD 0 + n.channel.getD 0) % palette.length

/-- `isActive` test (source line 143):
`currentTime >= n.startTime && currentTime <= (n.startTime + n.duration)`. -/
def isActiveNote (currentTime startTime duration : ℚ) : Bool :=
  decide (startTime ≤ currentTime) && decide (currentTime ≤ startTime + duration)

/-- The draw parameters the renderer computes for one note. -/
structure NoteRender where
  x : ℚ
  y : ℚ
  w : ℚ
  rectX : ℚ
  rectY : ℚ
  rectW : ℚ
  rectH : ℚ
  fill : String
  shadowBlur : ℚ
  shadowColor : String
  alpha : ℚ
  active : Bool
  inView : Bool
deriving DecidableEq

/-- Per-note body of the `notes.forEach` loop (source lines 132–176).
The two style branches differ per field, so the record is written with a
conditional per field; geometry and styling are byte-for-byte those of
the source (active: ±1px enlarged rect, blur 15, white fill on dark
backgrounds; inactive: alpha 0.9, blur 4, offset drop shadow). -/
def renderNote (width height currentTime : ℚ) (palette : List String) (isDarkBg : Bool)
    (n : NoteEvent) : NoteRender :=
  let PX_PER_SEC := width / 10
  let NOTE_HEIGHT := height / 88
  let PLAYHEAD_X := width * 0.25
  let relativeTime := n.startTime - currentTime
  let x := PLAYHEAD_X + relativeTime * PX_PER_SEC
  let w := max (n.duration * PX_PER_SEC) 3
  let noteIndex := n.note - 21
  let y := height - noteIndex * NOTE_HEIGHT - NOTE_HEIGHT
  let fillStyle := palette.getD (noteColorIdx n palette) "#000000"
  let active := isActiveNote currentTime n.startTime n.duration
  { x := x
    y := y
    w := w
    rectX := if active then x - 1 else x
    rectY := if active then y - 1 else y
    rectW := if active then w + 2 else w
    rectH := if active then NOTE_HEIGHT * 0.85 + 2 else NOTE_HEIGHT * 0.85
    fill := if active then (if isDarkBg then "#ffffff" else fillStyle) else fillStyle
    shadowBlur := if active then 15 else 4
    shadowColor := if active then fillStyle
      else (if isDarkBg then "rgba(0,0,0,0.5)" else "rgba(0,0,0,0.1)")
    alpha := if active then 1 else 0.9
    active := active
    inView := decide (-100 < x + w) && decide (x < width + 100) }

/-- Everything one `drawPianoRoll` call paints. -/
structure PianoRollOutput where
  background : String
  playheadX : ℚ
  playheadWidth : ℚ
  playheadStyle : String
  noteRects : List NoteRender
deriving DecidableEq

/-- `drawPianoRoll` (source lines 100–179): fill the background, draw the
playhead at `width * 0.25`, then draw every note whose rectangle meets
`(-100, width + 100)`. -/
def drawPianoRoll (notes : List NoteEvent) (currentTime : ℚ) (palette : List String)
    (backgroundColor : String) (width height : ℚ) : PianoRollOutput :=
  let isDarkBg := isDarkColor backgroundColor
  { background := backgroundColor
    playheadX := width * 0.25
    playheadWidth := max 2 (width * 0.002)
    playheadStyle := if isDarkBg then "rgba(255,255,255,0.4)" else "rgba(0,0,0,0.3)"
    noteRects :=
      (notes.map (renderNote width height currentTime palette isDarkBg)).filter
        (fun r => r.inView) }

/-! ## Oscilloscope renderer (`drawOscilloscope`, source lines 181–224)

The analyser node is modelled by the byte sample buffer it would report
(`getByteTimeDomainData`), `none` when no analyser is attached. -/

/-- One canvas operation the oscilloscope issues. -/
inductive ScopeOp where
  | fillRect (color : String) (x y w h : ℚ)
  | strokePath (pts : List (ℚ × ℚ)) (color : String) (lineWidth : ℚ)
deriving DecidableEq

/-- The waveform polyline (source lines 212–220): sample `i` maps to
`(i * width / bufferLength, (sample / 128) * height / 2)`. -/
def wavePoints (buf : List ℕ) (width height : ℚ) : List (ℚ × ℚ) :=
  (List.range buf.length).map fun (i : ℕ) =>
    ((i : ℚ) * (width / buf.length), (((buf.getD i 0 : ℕ) : ℚ) / 128) * height / 2)

/-- `drawOscilloscope` (source lines 181–224): background fill, then a
flat half-height line when idle (`!analyser || !isPlaying`), otherwise
the waveform path closed at `(width, height / 2)`. -/
def drawOscilloscope (analyser : Option (List ℕ)) (isPlaying : Bool)
    (color backgroundColor : String) (width height : ℚ) : List ScopeOp :=
  let bg := ScopeOp.fillRect backgroundColor 0 0 width height
  match analyser, isPlaying with
  | some buf, true =>
    [bg, ScopeOp.strokePath (wavePoints buf width height ++ [(width, height / 2)]) color 2]
  | _, _ =>
    [bg, ScopeOp.strokePath [(0, height / 2), (width, height / 2)] color 2]

/-! ## Theme extraction (`generateThemeFromImage`, source lines 262–317)

`getPixelData` resolves to the RGBA byte array of a 50×50 resample;
modelled as a list of `Pixel` records.  The dominant-color loop walks
byte indices `0, 4, 8, …` (one step per pixel); the accent loop walks
byte indices `0, 100, 200, …`, i.e. pixels `0, 25, 50, …`, and both read
components `data[i], data[i+1], data[i+2]` = `r, g, b` of that pixel. -/

/-- One RGBA pixel of the decoded image data. -/
structure Pixel where
  r : ℕ
  g : ℕ
  b : ℕ
  a : ℕ
deriving DecidableEq

/-- Channel quantization `Math.round(v / 10) * 10` (source lines 276–278).
For a natural `v`, JavaScript `Math.round(v / 10)` is
`⌊v / 10 + 1/2⌋ = (v + 5) / 10` in natural division: `v / 10` is within
one double ulp of the exact rational and the half-integer boundary cases
`v = 10k + 5` are exactly representable, so the double rounding never
crosses a `.5` boundary. -/
def quant (v : ℕ) : ℕ := ((v + 5) / 10) * 10

/-- The quantized-triplet tally key `` `${r},${g},${b}` `` of a pixel;
two keys are equal exactly when the quantized triplets are. -/
def pixelKey (p : Pixel) : ℕ × ℕ × ℕ := (quant p.r, quant p.g, quant p.b)

/-- Lookup in the `colorCounts` object: `colorCounts[key] || 0`. -/
def lookupCount (counts : List ((ℕ × ℕ × ℕ) × ℕ)) (k : ℕ × ℕ × ℕ) : ℕ :=
  match counts with
  | [] => 0
  | (k', c) :: rest => if k' = k then c else lookupCount rest k

/-- Assignment `colorCounts[key] = c` on the tally object. -/
def setCount (counts : List ((ℕ × ℕ × ℕ) × ℕ)) (k : ℕ × ℕ × ℕ) (c : ℕ) :
    List ((ℕ × ℕ × ℕ) × ℕ) :=
  match counts with
  | [] => [(k, c)]
  | (k', c') :: rest => if k' = k then (k, c) :: rest else (k', c') :: setCount rest k c

/-- Running state of the dominant-color loop: the tally, the best count
seen, and the original-precision pixel held in `dominantColor`. -/
structure ScanState where
  counts : List ((ℕ × ℕ × ℕ) × ℕ)
  maxCount : ℕ
  dom : ℕ × ℕ × ℕ
deriving DecidableEq

/-- One iteration of the dominant-color loop (source lines 275–285):
bump the pixel's quantized bucket and, when its new count strictly
exceeds `maxCount`, record this pixel's exact value as `dominantColor`. -/
def dominantStep (s : ScanState) (p : Pixel) : ScanState :=
  let k := pixelKey p
  let c := lookupCount s.counts k + 1
  let counts := setCount s.counts k c
  if s.maxCount < c then
    { counts := counts, maxCount := c, dom := (p.r, p.g, p.b) }
  else
    { counts := counts, maxCount := s.maxCount, dom := s.dom }

/-- The whole dominant-color loop, from
`maxCount = 0, dominantColor = {r:0,g:0,b:0}`. -/
def dominantScan (data : List Pixel) : ScanState :=
  data.foldl dominantStep { counts := [], maxCount := 0, dom := (0, 0, 0) }

/-- Spec-level tally: how many pixels of `data` fall in quantized bucket
`k` (&ldquo;tally frequency per quantized triplet&rdquo;). -/
def countBucket (data : List Pixel) (k : ℕ × ℕ × ℕ) : ℕ :=
  data.countP fun p => decide (pixelKey p = k)

/-- Bucket of an already-scanned `(r, g, b)` value. -/
def keyOfRGB (t : ℕ × ℕ × ℕ) : ℕ × ℕ × ℕ := (quant t.1, quant t.2.1, quant t.2.2)

/-- Every 25th entry of a list, mirroring the accent loop's byte stride
of 100 over 4-byte pixels (source lines 291–294). -/
def takeEvery25 : List Pixel → List Pixel
  | [] => []
  | p :: rest => p :: takeEvery25 (rest.drop 24)
termination_by l => l.length
decreasing_by simp [List.length_drop]; omega

/-- The `potentialColors` accumulation: push each hex not already
present (`!potentialColors.includes(hex)`), preserving order. -/
def collectDistinct (acc : List String) : List String → List String
  | [] => acc
  | h :: t => if h ∈ acc then collectDistinct acc t else collectDistinct (acc ++ [h]) t

/-- The full `potentialColors` list of the source (lines 290–294). -/
def potentialColors (data : List Pixel) : List String :=
  collectDistinct [] ((takeEvery25 data).map fun p => rgbToHex p.r p.g p.b)

/-- The adjusted background hex: dominant color re-encoded and passed
through `adjustColor` (source lines 287–288). -/
def bgHexOf (data : List Pixel) (brightness contrast : ℚ) : String :=
  let dom := (dominantScan data).dom
  adjustColor (rgbToHex dom.1 dom.2.1 dom.2.2) brightness contrast

/-- `filteredTracks` before the fallback push (source lines 299–301):
accents adjusted away from the background (brightness 150 on dark, 50 on
light), capped at 5. -/
def accentTracks (data : List Pixel) (contrast : ℚ) (isDarkBg : Bool) : List String :=
  ((potentialColors data).map fun hex =>
    adjustColor hex (if isDarkBg then 150 else 50) contrast).take 5

/-- Body of `generateThemeFromImage` after the image has been decoded to
pixel data (source lines 270–312). -/
def generateThemeFromData (data : List Pixel) (brightness contrast : ℚ) : ThemePalette :=
  let bgHex := bgHexOf data brightness contrast
  let isDarkBg := isDarkColor bgHex
  let filtered := accentTracks data contrast isDarkBg
  let filteredTracks :=
    if filtered.length < 2 then filtered ++ [if isDarkBg then "#ffffff" else "#000000"]
    else filtered
  { background := bgHex
    scope := filteredTracks.getD 0 "#000000"
    text := filteredTracks.getD 0 "#000000"
    tracks := filteredTracks }

/-- `generateThemeFromImage` (source lines 262–317): the default theme
when no image is supplied (or on decode failure), otherwise the theme
computed from the decoded pixel data. -/
def generateThemeFromImage (imgData : Option (List Pixel)) (brightness contrast : ℚ) :
    ThemePalette :=
  match imgData with
  | none => DEFAULT_THEME
  | some data => generateThemeFromData data brightness contrast

/-! ## Further codec lemmas -/

lemma clampByte_intCast (z : ℤ) : clampByte (z : ℚ) = (min 255 (max 0 z)).toNat := by
  unfold clampByte
  rw [jsRound_intCast]

lemma rgbToHex_intCast (zr zg zb : ℤ) :
    rgbToHex (zr : ℚ) (zg : ℚ) (zb : ℚ) =
      String.mk ('#' :: (byteToHex (min 255 (max 0 zr)).toNat ++
        byteToHex (min 255 (max 0 zg)).toNat ++ byteToHex (min 255 (max 0 zb)).toNat)) := by
  unfold rgbToHex
  rw [clampByte_intCast, clampByte_intCast, clampByte_intCast]

/-! ## Claim theorems: color utilities -/

/-- C3: for every valid 6-digit hex color and all brightness/contrast
values, `adjustColor` applies contrast first
(`v' = (v − 128)·(contrast/100) + 128`) and then brightness
(`v'' = v' + (brightness − 100)·1.5`) per channel, clamping to `[0,255]`
on re-encoding; in particular `adjust('#808080', 200, 100) = '#ffffff'`
and `adjust('#808080', 0, 100) = '#000000'`. -/
theorem adjustColor_contrast_then_brightness :
    (∀ (hex : String) (r g b : ℕ) (brightness contrast : ℚ),
      hexToRgb hex = some (r, g, b) →
      adjustColor hex brightness contrast =
        rgbToHex
          (((r : ℚ) - 128) * (contrast / 100) + 128 + (brightness - 100) * 1.5)
          (((g : ℚ) - 128) * (contrast / 100) + 128 + (brightness - 100) * 1.5)
          (((b : ℚ) - 128) * (contrast / 100) + 128 + (brightness - 100) * 1.5)) ∧
    adjustColor "#808080" 200 100 = "#ffffff" ∧
    adjustColor "#808080" 0 100 = "#000000" := by
  have h80 : hexToRgb "#808080" = some (128, 128, 128) := by decide
  refine ⟨?_, ?_, ?_⟩
  · intro hex r g b brightness contrast h
    simp only [adjustColor, h]
  · simp only [adjustColor, h80]
    rw [show ((128:ℕ):ℚ) = ((128:ℤ):ℚ) by norm_num]
    rw [show (((128:ℤ):ℚ) - 128) * (100 / 100) + 128 + ((200:ℚ) - 100) * 1.5 = ((278:ℤ):ℚ)
      by norm_num]
    rw [rgbToHex_intCast]
    decide
  · simp only [adjustColor, h80]
    rw [show ((128:ℕ):ℚ) = ((128:ℤ):ℚ) by norm_num]
    rw [show (((128:ℤ):ℚ) - 128) * (100 / 100) + 128 + ((0:ℚ) - 100) * 1.5 = ((-22:ℤ):ℚ)
      by norm_num]
    rw [rgbToHex_intCast]
    decide

/-- C3 witness: the general formula of
`adjustColor_contrast_then_brightness` instantiated at `#4080c0`,
brightness 150, contrast 120. -/
theorem adjustColor_contrast_then_brightness_witness :
    adjustColor "#4080c0" 150 120 =
      rgbToHex
        ((((64:ℕ):ℚ) - 128) * (120 / 100) + 128 + ((150:ℚ) - 100) * 1.5)
        ((((128:ℕ):ℚ) - 128) * (120 / 100) + 128 + ((150:ℚ) - 100) * 1.5)
        ((((192:ℕ):ℚ) - 128) * (120 / 100) + 128 + ((150:ℚ) - 100) * 1.5) :=
  adjustColor_contrast_then_brightness.1 "#4080c0" 64 128 192 150 120 (by decide)

/-- C4 counterexample: `"808080"` is accepted by `hexToRgb` (the `#` is
optional and the regex is case-insensitive), yet
`adjustColor "808080" 100 100` returns the canonical `"#808080"`, which
is not equal to the input string. -/
theorem adjustColor_identity_counterexample :
    hexToRgb "808080" = some (128, 128, 128) ∧
    adjustColor "808080" 100 100 = "#808080" ∧
    adjustColor "808080" 100 100 ≠ "808080" := by
  have h : hexToRgb "808080" = some (128, 128, 128) := by decide
  have heval : adjustColor "808080" 100 100 = "#808080" := by
    simp only [adjustColor, h]
    rw [show ((128:ℕ):ℚ) = ((128:ℤ):ℚ) by norm_num]
    rw [show (((128:ℤ):ℚ) - 128) * (100 / 100) + 128 + ((100:ℚ) - 100) * 1.5 = ((128:ℤ):ℚ)
      by norm_num]
    rw [rgbToHex_intCast]
    decide
  exact ⟨h, heval, by rw [heval]; decide⟩

/-- C4 (amended): at brightness 100 and contrast 100, `adjustColor`
returns the canonical lowercase `#rrggbb` re-encoding of the parsed
color; it is the identity on every canonical encoding (every `rgbToHex`
output), though not on the `#`-less or uppercase spellings `hexToRgb`
also accepts. -/
theorem adjustColor_default_identity :
    (∀ (hex : String) (r g b : ℕ), hexToRgb hex = some (r, g, b) →
      adjustColor hex 100 100 = rgbToHex (r : ℚ) (g : ℚ) (b : ℚ)) ∧
    (∀ r g b : ℚ, adjustColor (rgbToHex r g b) 100 100 = rgbToHex r g b) := by
  have e : ∀ n : ℕ,
      (((n:ℕ):ℚ) - 128) * (100 / 100) + 128 + ((100:ℚ) - 100) * 1.5 = (n:ℚ) := by
    intro n; norm_num
  constructor
  · intro hex r g b h
    simp only [adjustColor, h]
    rw [e r, e g, e b]
  · intro r g b
    simp only [adjustColor, hexToRgb_rgbToHex]
    rw [e _, e _, e _]
    unfold rgbToHex
    rw [clampByte_natCast _ (clampByte_lt r), clampByte_natCast _ (clampByte_lt g),
      clampByte_natCast _ (clampByte_lt b)]

/-- C4 witness: `adjustColor_default_identity` applied at the concrete
parsed input `"808080"`. -/
theorem adjustColor_default_identity_witness :
    adjustColor "808080" 100 100 = rgbToHex ((128:ℕ):ℚ) ((128:ℕ):ℚ) ((128:ℕ):ℚ) :=
  adjustColor_default_identity.1 "808080" 128 128 128 (by decide)

/-- C5: for all integers `r`, `g`, `b` (also outside `[0,255]`),
`hexToRgb (rgbToHex r g b)` succeeds and recovers exactly the channel
values clamped to `[0,255]`. -/
theorem hexToRgb_rgbToHex_clamp (r g b : ℤ) :
    hexToRgb (rgbToHex (r : ℚ) (g : ℚ) (b : ℚ)) =
      some ((min 255 (max 0 r)).toNat, (min 255 (max 0 g)).toNat,
        (min 255 (max 0 b)).toNat) := by
  rw [hexToRgb_rgbToHex, clampByte_intCast, clampByte_intCast, clampByte_intCast]

/-- C10: whenever a color string fails the strict hex parse,
`getHexLuminance` returns 0, so the string is classified dark
(`luminance < 128`) wherever that test runs — in particular
`drawPianoRoll` picks the dark-background playhead style. -/
theorem malformed_hex_is_dark (s : String) (h : hexToRgb s = none) :
    getHexLuminance s = 0 ∧ isDarkColor s = true ∧
    (∀ (notes : List NoteEvent) (currentTime : ℚ) (palette : List String) (width height : ℚ),
      (drawPianoRoll notes currentTime palette s width height).playheadStyle =
        "rgba(255,255,255,0.4)") := by
  have hl : getHexLuminance s = 0 := by simp [getHexLuminance, h]
  have hd : isDarkColor s = true := by
    simp only [isDarkColor, hl, decide_eq_true_eq]
    norm_num
  exact ⟨hl, hd, fun notes ct pal w hgt => by simp [drawPianoRoll, hd]⟩

/-- C10 witness: `malformed_hex_is_dark` at the malformed string
`"not-a-color"`. -/
theorem malformed_hex_is_dark_witness :
    getHexLuminance "not-a-color" = 0 ∧ isDarkColor "not-a-color" = true :=
  ⟨(malformed_hex_is_dark "not-a-color" (by decide)).1,
   (malformed_hex_is_dark "not-a-color" (by decide)).2.1⟩

/-! ## Claim theorems: piano roll and oscilloscope -/

/-- C6: a note is classified active exactly when the current time lies
in the closed interval `[startTime, startTime + duration]`; a note
starting exactly at `currentTime` with positive duration is active, and
a note is inactive (blur 4, not the 15 glow) as soon as the current time
passes `startTime + duration` by any `ε > 0`. -/
theorem active_note_closed_interval :
    (∀ currentTime startTime duration : ℚ,
      isActiveNote currentTime startTime duration = true ↔
        startTime ≤ currentTime ∧ currentTime ≤ startTime + duration) ∧
    (∀ (width height : ℚ) (palette : List String) (isDarkBg : Bool) (n : NoteEvent),
      0 < n.duration →
      (renderNote width height n.startTime palette isDarkBg n).active = true) ∧
    (∀ (width height ε : ℚ) (palette : List String) (isDarkBg : Bool) (n : NoteEvent),
      0 < ε →
      (renderNote width height (n.startTime + n.duration + ε) palette isDarkBg n).active
          = false ∧
      (renderNote width height (n.startTime + n.duration + ε) palette isDarkBg n).shadowBlur
          = 4) := by
  refine ⟨?_, ?_, ?_⟩
  · intro ct st dur
    simp [isActiveNote]
  · intro w hgt pal dark n hdur
    simp [renderNote, isActiveNote]
    linarith
  · intro w hgt ε pal dark n hε
    have hfalse :
        isActiveNote (n.startTime + n.duration + ε) n.startTime n.duration = false := by
      simp only [isActiveNote, Bool.and_eq_false_iff, decide_eq_false_iff_not, not_le]
      right
      linarith
    exact ⟨by simp [renderNote, hfalse], by simp [renderNote, hfalse]⟩

/-- C6 witness: `active_note_closed_interval` at a concrete note with
`startTime = 0`, `duration = 1`, current times `0` and `2`. -/
theorem active_note_closed_interval_witness :
    (renderNote 160 90 0 ["#123456"] false
      { note := 60, velocity := 100, startTime := 0, duration := 1,
        track := some 0, channel := some 0 }).active = true ∧
    (renderNote 160 90 (0 + 1 + 1) ["#123456"] false
      { note := 60, velocity := 100, startTime := 0, duration := 1,
        track := some 0, channel := some 0 }).active = false :=
  ⟨active_note_closed_interval.2.1 160 90 ["#123456"] false
      { note := 60, velocity := 100, startTime := 0, duration := 1,
        track := some 0, channel := some 0 } (by norm_num),
   (active_note_closed_interval.2.2 160 90 1 ["#123456"] false
      { note := 60, velocity := 100, startTime := 0, duration := 1,
        track := some 0, channel := some 0 } (by norm_num)).1⟩

/-- C7: every note rectangle the piano roll draws has
`x = width·0.25 + (startTime − currentTime)·(width/10)` — affine in the
relative time — the playhead sits at `width·0.25`, and a note whose
relative time is 0 renders exactly at the playhead. -/
theorem note_x_linear (notes : List NoteEvent) (currentTime : ℚ) (palette : List String)
    (backgroundColor : String) (width height : ℚ) :
    (∀ r ∈ (drawPianoRoll notes currentTime palette backgroundColor width height).noteRects,
      ∃ n ∈ notes, r.x = width * 0.25 + (n.startTime - currentTime) * (width / 10)) ∧
    (drawPianoRoll notes currentTime palette backgroundColor width height).playheadX
        = width * 0.25 ∧
    (∀ (isDarkBg : Bool) (n : NoteEvent), n.startTime = currentTime →
      (renderNote width height currentTime palette isDarkBg n).x = width * 0.25) := by
  refine ⟨?_, rfl, ?_⟩
  · intro r hr
    simp only [drawPianoRoll, List.mem_filter, List.mem_map] at hr
    obtain ⟨⟨n, hn, rfl⟩, -⟩ := hr
    exact ⟨n, hn, by simp [renderNote]⟩
  · intro dark n h
    simp [renderNote, h]

/-- C7 witness: `note_x_linear` at a note sitting on the playhead of a
width-160 surface. -/
theorem note_x_linear_witness :
    (renderNote 160 90 5 ["#123456"] false
      { note := 72, velocity := 64, startTime := 5, duration := 2,
        track := none, channel := none }).x = 160 * 0.25 :=
  (note_x_linear [] 5 ["#123456"] "#ffffff" 160 90).2.2 false
    { note := 72, velocity := 64, startTime := 5, duration := 2,
      track := none, channel := none } rfl

/-- C8: with no analyser attached or with playback stopped, the
oscilloscope draw is exactly a background fill followed by one flat
stroke from `(0, height/2)` to `(width, height/2)` — no waveform point
is sampled and the output does not depend on any buffer contents. -/
theorem oscilloscope_idle_flat_line (analyser : Option (List ℕ)) (isPlaying : Bool)
    (color backgroundColor : String) (width height : ℚ)
    (hidle : analyser = none ∨ isPlaying = false) :
    drawOscilloscope analyser isPlaying color backgroundColor width height =
      [ScopeOp.fillRect backgroundColor 0 0 width height,
       ScopeOp.strokePath [(0, height / 2), (width, height / 2)] color 2] := by
  rcases hidle with rfl | rfl
  · cases isPlaying <;> rfl
  · cases analyser <;> rfl

/-- C8 witness: `oscilloscope_idle_flat_line` with a non-empty buffer
attached but playback stopped. -/
theorem oscilloscope_idle_flat_line_witness :
    drawOscilloscope (some [0, 255, 128]) false "#1a1a1a" "#fffbe9" 160 90 =
      [ScopeOp.fillRect "#fffbe9" 0 0 160 90,
       ScopeOp.strokePath [(0, 90 / 2), (160, 90 / 2)] "#1a1a1a" 2] :=
  oscilloscope_idle_flat_line (some [0, 255, 128]) false "#1a1a1a" "#fffbe9" 160 90
    (Or.inr rfl)

/-- C9: for any note (with `track`/`channel` arbitrary naturals or
absent) and any non-empty palette, the color index
`(track + channel) % palette.length` is in bounds, and the color the
renderer reads with it is a palette member. -/
theorem noteColorIdx_in_bounds (n : NoteEvent) (palette : List String)
    (hp : palette ≠ []) :
    noteColorIdx n palette < palette.length ∧
    palette.getD (noteColorIdx n palette) "#000000" ∈ palette := by
  have hlt : noteColorIdx n palette < palette.length :=
    Nat.mod_lt _ (List.length_pos.mpr hp)
  refine ⟨hlt, ?_⟩
  rw [List.getD_eq_getElem?_getD, List.getElem?_eq_getElem hlt]
  exact List.getElem_mem hlt

/-- C9 witness: `noteColorIdx_in_bounds` at a note with huge track and
channel numbers over a 4-color palette. -/
theorem noteColorIdx_in_bounds_witness :
    noteColorIdx
      { note := 60, velocity := 100, startTime := 0, duration := 1,
        track := some 123456789, channel := some 987654321 }
      ["#1a1a1a", "#8c8c8c", "#4a4a4a", "#b0b0b0"] <
      (["#1a1a1a", "#8c8c8c", "#4a4a4a", "#b0b0b0"] : List String).length :=
  (noteColorIdx_in_bounds
    { note := 60, velocity := 100, startTime := 0, duration := 1,
      track := some 123456789, channel := some 987654321 }
    ["#1a1a1a", "#8c8c8c", "#4a4a4a", "#b0b0b0"] (by decide)).1

/-! ## Claim theorems: theme extraction

### The dominant-color loop invariant -/

lemma lookupCount_nil (k : ℕ × ℕ × ℕ) : lookupCount [] k = 0 := rfl

lemma lookupCount_setCount (l : List ((ℕ × ℕ × ℕ) × ℕ)) (k k' : ℕ × ℕ × ℕ) (c : ℕ) :
    lookupCount (setCount l k c) k' = if k' = k then c else lookupCount l k' := by
  induction l with
  | nil =>
    simp only [setCount, lookupCount]
    by_cases h : k = k'
    · subst h; simp
    · have h' : ¬k' = k := fun e => h e.symm
      simp [h, h']
  | cons hd tl ih =>
    obtain ⟨khd, chd⟩ := hd
    simp only [setCount]
    by_cases h1 : khd = k
    · subst h1
      simp only [if_pos rfl, lookupCount]
      by_cases h2 : khd = k'
      · subst h2; simp
      · have h2' : ¬k' = khd := fun e => h2 e.symm
        simp [h2, h2']
    · simp only [if_neg h1, lookupCount]
      by_cases h2 : khd = k'
      · subst h2
        simp [h1]
      · simp [h2, ih]

lemma countBucket_append_singleton (data : List Pixel) (p : Pixel) (k : ℕ × ℕ × ℕ) :
    countBucket (data ++ [p]) k =
      countBucket data k + (if pixelKey p = k then 1 else 0) := by
  simp only [countBucket, List.countP_append, List.countP_cons, List.countP_nil]
  by_cases h : pixelKey p = k <;> simp [h]

/-- Invariant carried by the dominant-color loop over the processed
prefix: the tally object is exact, `maxCount` bounds every bucket, and
(once anything has been processed) the held `dominantColor` lies in a
bucket whose tally is exactly `maxCount`. -/
def ScanInv (processed : List Pixel) (s : ScanState) : Prop :=
  (∀ k, lookupCount s.counts k = countBucket processed k) ∧
  (∀ k, countBucket processed k ≤ s.maxCount) ∧
  (processed = [] → s.maxCount = 0) ∧
  (processed ≠ [] → countBucket processed (keyOfRGB s.dom) = s.maxCount)

lemma keyOfRGB_pixel (p : Pixel) : keyOfRGB (p.r, p.g, p.b) = pixelKey p := rfl

lemma scanInv_step (processed : List Pixel) (s : ScanState) (p : Pixel)
    (h : ScanInv processed s) : ScanInv (processed ++ [p]) (dominantStep s p) := by
  obtain ⟨hcounts, hmax, hzero, hdom⟩ := h
  have hcb : countBucket (processed ++ [p]) (pixelKey p) =
      countBucket processed (pixelKey p) + 1 := by
    rw [countBucket_append_singleton]; simp
  have hcb' : ∀ k, k ≠ pixelKey p →
      countBucket (processed ++ [p]) k = countBucket processed k := by
    intro k hk
    rw [countBucket_append_singleton]
    have : ¬pixelKey p = k := fun e => hk e.symm
    simp [this]
  have hlookup : ∀ k,
      lookupCount (setCount s.counts (pixelKey p) (lookupCount s.counts (pixelKey p) + 1)) k
        = countBucket (processed ++ [p]) k := by
    intro k
    rw [lookupCount_setCount]
    by_cases hk : k = pixelKey p
    · subst hk; rw [if_pos rfl, hcounts, hcb]
    · rw [if_neg hk, hcounts, hcb' k hk]
  have hcc : lookupCount s.counts (pixelKey p) + 1 =
      countBucket (processed ++ [p]) (pixelKey p) := by
    rw [hcounts, hcb]
  unfold dominantStep
  by_cases hlt : s.maxCount < lookupCount s.counts (pixelKey p) + 1
  · rw [if_pos hlt]
    refine ⟨hlookup, ?_, fun habs => absurd habs (by simp), fun _ => ?_⟩
    · intro k
      show countBucket (processed ++ [p]) k ≤ lookupCount s.counts (pixelKey p) + 1
      by_cases hk : k = pixelKey p
      · subst hk; omega
      · rw [hcb' k hk]
        have := hmax k
        omega
    · show countBucket (processed ++ [p]) (keyOfRGB (p.r, p.g, p.b)) =
        lookupCount s.counts (pixelKey p) + 1
      rw [keyOfRGB_pixel, ← hcc]
  · rw [if_neg hlt]
    have hproc : processed ≠ [] := by
      intro habs
      have h0 : s.maxCount = 0 := hzero habs
      rw [h0] at hlt
      omega
    refine ⟨hlookup, ?_, fun habs => absurd habs (by simp), fun _ => ?_⟩
    · intro k
      show countBucket (processed ++ [p]) k ≤ s.maxCount
      by_cases hk : k = pixelKey p
      · subst hk
        have := hcc
        omega
      · rw [hcb' k hk]
        exact hmax k
    · show countBucket (processed ++ [p]) (keyOfRGB s.dom) = s.maxCount
      have hold := hdom hproc
      have hkey : keyOfRGB s.dom ≠ pixelKey p := by
        intro he
        rw [he] at hold
        have hlk := hcounts (pixelKey p)
        omega
      rw [hcb' _ hkey]
      exact hold

lemma scanInv_foldl (l : List Pixel) :
    ∀ (processed : List Pixel) (s : ScanState), ScanInv processed s →
      ScanInv (processed ++ l) (l.foldl dominantStep s) := by
  induction l with
  | nil => intro processed s h; simpa using h
  | cons p t ih =>
    intro processed s h
    have := ih (processed ++ [p]) (dominantStep s p) (scanInv_step processed s p h)
    simpa using this

lemma scanInv_init : ScanInv [] { counts := [], maxCount := 0, dom := (0, 0, 0) } := by
  refine ⟨?_, ?_, fun _ => rfl, fun habs => absurd rfl habs⟩
  · intro k; rfl
  · intro k; simp [countBucket]

/-- C1 counterexample: both pixels of `[(0,0,0), (4,4,4)]` quantize to
the same bucket, whose first-seen original-precision value is
`(0,0,0)` — but the scan returns `(4,4,4)`, the pixel at which the
bucket's count last set a new maximum. -/
theorem dominant_not_first_seen_counterexample :
    pixelKey { r := 0, g := 0, b := 0, a := 255 }
        = pixelKey { r := 4, g := 4, b := 4, a := 255 } ∧
    (dominantScan [{ r := 0, g := 0, b := 0, a := 255 },
        { r := 4, g := 4, b := 4, a := 255 }]).dom = (4, 4, 4) ∧
    ((4, 4, 4) : ℕ × ℕ × ℕ) ≠ (0, 0, 0) := by
  decide

/-- C1 (amended): the dominant-color pass quantizes each channel with
`round(v/10)*10`, tallies per quantized triplet, and returns an
original-precision pixel value whose bucket attains the maximal tally —
namely the pixel at which the running maximum was last strictly
exceeded, which is in general not the bucket's first-seen pixel; with
equal final tallies the bucket that reached the maximum first wins. -/
theorem dominantScan_max_bucket (data : List Pixel) (hd : data ≠ []) :
    (∀ k, lookupCount (dominantScan data).counts k = countBucket data k) ∧
    (∀ k, countBucket data k ≤ (dominantScan data).maxCount) ∧
    countBucket data (keyOfRGB (dominantScan data).dom) = (dominantScan data).maxCount := by
  have h := scanInv_foldl data [] { counts := [], maxCount := 0, dom := (0, 0, 0) }
    scanInv_init
  rw [List.nil_append] at h
  exact ⟨h.1, h.2.1, h.2.2.2 hd⟩

/-- C1 witness: `dominantScan_max_bucket` at the concrete two-pixel
image data. -/
theorem dominantScan_max_bucket_witness :
    countBucket [{ r := 0, g := 0, b := 0, a := 255 }, { r := 4, g := 4, b := 4, a := 255 }]
        (keyOfRGB (dominantScan [{ r := 0, g := 0, b := 0, a := 255 },
          { r := 4, g := 4, b := 4, a := 255 }]).dom) =
      (dominantScan [{ r := 0, g := 0, b := 0, a := 255 },
        { r := 4, g := 4, b := 4, a := 255 }]).maxCount :=
  (dominantScan_max_bucket
    [{ r := 0, g := 0, b := 0, a := 255 }, { r := 4, g := 4, b := 4, a := 255 }]
    (by decide)).2.2

/-! ### The ≥2-tracks invariant -/

lemma collectDistinct_length_mono (l : List String) :
    ∀ acc : List String, acc.length ≤ (collectDistinct acc l).length := by
  induction l with
  | nil => intro acc; simp [collectDistinct]
  | cons h t ih =>
    intro acc
    simp only [collectDistinct]
    by_cases hm : h ∈ acc
    · simpa [hm] using ih acc
    · have := ih (acc ++ [h])
      simp only [if_neg hm]
      simp [List.length_append] at this
      omega

lemma potentialColors_length_pos (data : List Pixel) (hd : data ≠ []) :
    1 ≤ (potentialColors data).length := by
  obtain ⟨p, rest, rfl⟩ := List.exists_cons_of_ne_nil hd
  unfold potentialColors
  rw [takeEvery25]
  simp only [List.map_cons, collectDistinct]
  rw [if_neg (List.not_mem_nil _)]
  have := collectDistinct_length_mono ((takeEvery25 (rest.drop 24)).map
    fun q => rgbToHex q.r q.g q.b) ([] ++ [rgbToHex p.r p.g p.b])
  simpa using this

lemma accentTracks_length_pos (data : List Pixel) (contrast : ℚ) (isDarkBg : Bool)
    (hd : data ≠ []) : 1 ≤ (accentTracks data contrast isDarkBg).length := by
  unfold accentTracks
  rw [List.length_take, List.length_map]
  have := potentialColors_length_pos data hd
  omega

/-- C2: the theme returned by `generateThemeFromImage` always carries at
least two track colors (for any decodable, hence non-empty, pixel data
and any brightness/contrast), and when fewer than two accents survive
the scan, the single hard fallback appended is white on a dark adjusted
background and black on a light one. -/
theorem theme_tracks_at_least_two (imgData : Option (List Pixel)) (brightness contrast : ℚ)
    (hdec : ∀ data, imgData = some data → data ≠ []) :
    2 ≤ (generateThemeFromImage imgData brightness contrast).tracks.length ∧
    (∀ data, imgData = some data →
      (accentTracks data contrast (isDarkColor (bgHexOf data brightness contrast))).length < 2 →
      (generateThemeFromImage imgData brightness contrast).tracks =
        accentTracks data contrast (isDarkColor (bgHexOf data brightness contrast)) ++
          [if isDarkColor (bgHexOf data brightness contrast) then "#ffffff" else "#000000"]) := by
  cases imgData with
  | none =>
    refine ⟨by simp [generateThemeFromImage, DEFAULT_THEME], fun data hd => ?_⟩
    exact absurd hd (by simp)
  | some data =>
    have hne := hdec data rfl
    have hlen := accentTracks_length_pos data contrast
      (isDarkColor (bgHexOf data brightness contrast)) hne
    constructor
    · simp only [generateThemeFromImage, generateThemeFromData]
      by_cases h2 : (accentTracks data contrast
          (isDarkColor (bgHexOf data brightness contrast))).length < 2
      · rw [if_pos h2, List.length_append]
        simp only [List.length_cons, List.length_nil]
        omega
      · rw [if_neg h2]
        omega
    · intro d hd h2
      injection hd with hd2
      subst hd2
      simp only [generateThemeFromImage, generateThemeFromData]
      rw [if_pos h2]

/-- C2 witness: `theme_tracks_at_least_two` at a concrete one-pixel
image. -/
theorem theme_tracks_at_least_two_witness :
    2 ≤ (generateThemeFromImage (some [{ r := 10, g := 20, b := 30, a := 255 }])
      100 100).tracks.length :=
  (theme_tracks_at_least_two (some [{ r := 10, g := 20, b := 30, a := 255 }]) 100 100
    (by intro data h; injection h with h2; rw [← h2]; simp)).1

end Tintin
